import Mathlib

/-!
Verification of the HIIT interval-timer engine
(`src/components/hiit/control-bar.tsx` plus the type declarations in
`src/lib/hiit-types.ts`).

The engine is embedded shallowly: each TypeScript function becomes a Lean
function on the same data.  Durations and counters are JavaScript numbers
that the program only ever uses as non-negative whole seconds / counts, so
they are modelled as `Nat`.  The `setInterval` callback (the tick updater)
is only installed while the timer is unpaused and not complete — the
interval effect at control-bar.tsx:260-267 clears the interval otherwise —
so one delivered tick is the guarded composition `tick` below.
-/

/-- `TimerPhase` from hiit-types.ts: the five phase tags. -/
inductive TimerPhase where
  | prep
  | work
  | rest
  | cooldown
  | complete
deriving DecidableEq

/-- `HIITConfig` from hiit-types.ts: all durations in whole seconds. -/
structure HIITConfig where
  prep : Nat
  sets : Nat
  work : Nat
  rest : Nat
  cooldown : Nat
deriving DecidableEq

/-- `TimerState` from hiit-types.ts. -/
structure TimerState where
  phase : TimerPhase
  currentSet : Nat
  timeRemaining : Nat
  totalTime : Nat
  isPaused : Bool
  config : HIITConfig
deriving DecidableEq

/-- `MIN_TIME = 1` second (control-bar.tsx:86). -/
def MIN_TIME : Nat := 1

/-- `MAX_TIME = 3600` seconds (control-bar.tsx:87). -/
def MAX_TIME : Nat := 3600

/-- The argument type of `validateConfig`: a candidate configuration whose
fields may each be absent (`Partial<HIITConfig>` in the source). -/
structure ConfigInput where
  prep : Option Nat
  sets : Option Nat
  work : Option Nat
  rest : Option Nat
  cooldown : Option Nat
deriving DecidableEq

/-- The test `!x || x < lo || x > hi` on an optional non-negative whole
number: an absent field and the value 0 are both falsy in JavaScript. -/
def timeOutOfBounds (x : Option Nat) (lo hi : Nat) : Bool :=
  match x with
  | none => true
  | some v => v == 0 || v < lo || v > hi

/-- The test `!config.sets || config.sets < 1` (control-bar.tsx:142). -/
def setsOutOfBounds (x : Option Nat) : Bool :=
  match x with
  | none => true
  | some v => v == 0 || v < 1

/-- The test at control-bar.tsx:151: cooldown is only checked when present,
and only against the upper bound (it is allowed to be 0). -/
def cooldownOutOfBounds (x : Option Nat) : Bool :=
  match x with
  | none => false
  | some v => v > MAX_TIME

/-- The interpolated message at control-bar.tsx:140 with `MIN_TIME = 1`
and `MAX_TIME = 3600` substituted. -/
def prepErrorMessage : String :=
  "Prep must be between 1s and 3600s (60 minutes)"

/-- The message at control-bar.tsx:143. -/
def setsErrorMessage : String :=
  "Sets must be at least 1"

/-- The interpolated message at control-bar.tsx:146. -/
def workErrorMessage : String :=
  "Work must be between 1s and 3600s (60 minutes)"

/-- The interpolated message at control-bar.tsx:149. -/
def restErrorMessage : String :=
  "Rest must be between 1s and 3600s (60 minutes)"

/-- The interpolated message at control-bar.tsx:152. -/
def cooldownErrorMessage : String :=
  "Cooldown must be between 0s and 3600s (60 minutes)"

/-- `validateConfig` (control-bar.tsx:138-155): returns the first error
message, or `none` when the candidate passes every check. -/
def validateConfig (config : ConfigInput) : Option String :=
  if timeOutOfBounds config.prep MIN_TIME MAX_TIME then
    some prepErrorMessage
  else if setsOutOfBounds config.sets then
    some setsErrorMessage
  else if timeOutOfBounds config.work MIN_TIME MAX_TIME then
    some workErrorMessage
  else if timeOutOfBounds config.rest MIN_TIME MAX_TIME then
    some restErrorMessage
  else if cooldownOutOfBounds config.cooldown then
    some cooldownErrorMessage
  else
    none

/-- The `fullConfig` built by `handleStart` (control-bar.tsx:357-363) after
validation succeeded: `prep!`, `sets!`, `work!`, `rest!` are known present,
and `cooldown || 0` defaults an absent (or zero) cooldown to 0. -/
def populateConfig (config : ConfigInput) : HIITConfig :=
  ⟨config.prep.getD 0, config.sets.getD 0, config.work.getD 0,
    config.rest.getD 0, config.cooldown.getD 0⟩

/-- `initializeTimerState` (control-bar.tsx:157-166). -/
def initializeTimerState (config : HIITConfig) (autoStart : Bool) : TimerState :=
  ⟨TimerPhase.prep, 1, config.prep, config.prep, !autoStart, config⟩

/-- `getNextPhase` (control-bar.tsx:168-189).  The default branch of the
source switch returns the current phase unchanged. -/
def getNextPhase (state : TimerState) : TimerPhase :=
  match state.phase with
  | .prep => .work
  | .work =>
      if state.currentSet < state.config.sets then .rest
      else if state.config.cooldown > 0 then .cooldown
      else .complete
  | .rest => .work
  | .cooldown => .complete
  | p => p

/-- `getPhaseDuration` (control-bar.tsx:191-205). -/
def getPhaseDuration (phase : TimerPhase) (state : TimerState) : Nat :=
  match phase with
  | .prep => state.config.prep
  | .work => state.config.work
  | .rest => state.config.rest
  | .cooldown => state.config.cooldown
  | _ => 0

/-- The body of the `setInterval` callback (control-bar.tsx:270-305),
with the source's `let` bindings inlined. -/
def tickUpdate (prev : TimerState) : TimerState :=
  if prev.timeRemaining ≤ 1 then
    if getNextPhase prev = TimerPhase.complete then
      { prev with phase := TimerPhase.complete, timeRemaining := 0, isPaused := true }
    else if getNextPhase prev = TimerPhase.work ∧ prev.phase = TimerPhase.rest then
      { prev with
        phase := TimerPhase.work
        currentSet := prev.currentSet + 1
        timeRemaining := prev.config.work
        totalTime := prev.config.work }
    else
      { prev with
        phase := getNextPhase prev
        timeRemaining := getPhaseDuration (getNextPhase prev) prev
        totalTime := getPhaseDuration (getNextPhase prev) prev }
  else
    { prev with timeRemaining := prev.timeRemaining - 1 }

/-- One delivered tick.  The interval effect (control-bar.tsx:260-267)
installs the updater only while the state is unpaused and not complete, so
a tick arriving in any other state leaves the state untouched. -/
def tick (s : TimerState) : TimerState :=
  if s.isPaused = true ∨ s.phase = TimerPhase.complete then s else tickUpdate s

/-- `handlePause` (control-bar.tsx:367-369). -/
def handlePause (prev : TimerState) : TimerState :=
  { prev with isPaused := true }

/-- `handlePlay` (control-bar.tsx:371-373): the resume operation. -/
def handlePlay (prev : TimerState) : TimerState :=
  { prev with isPaused := false }

/-- `handleRestart` (control-bar.tsx:375-385): rebuilds the config field
by field and starts a fresh auto-started timer from it. -/
def handleRestart (prev : TimerState) : TimerState :=
  initializeTimerState
    ⟨prev.config.prep, prev.config.sets, prev.config.work, prev.config.rest,
      prev.config.cooldown⟩ true

/-- `handleSkipSet` (control-bar.tsx:387-409), with the source's `let`
bindings inlined. -/
def handleSkipSet (prev : TimerState) : TimerState :=
  if getNextPhase prev = TimerPhase.complete then
    { prev with phase := TimerPhase.complete, timeRemaining := 0, isPaused := true }
  else
    { prev with
      phase := getNextPhase prev
      currentSet :=
        if getNextPhase prev = TimerPhase.work ∧ prev.phase = TimerPhase.rest then
          prev.currentSet + 1
        else prev.currentSet
      timeRemaining := getPhaseDuration (getNextPhase prev) prev
      totalTime := getPhaseDuration (getNextPhase prev) prev }

/-- A configuration that passes `validateConfig` once fully populated:
`prep`, `work`, `rest` in `[MIN_TIME, MAX_TIME]`, at least one set, and a
cooldown of at most `MAX_TIME`. -/
def ValidConfig (c : HIITConfig) : Prop :=
  MIN_TIME ≤ c.prep ∧ c.prep ≤ MAX_TIME ∧ 1 ≤ c.sets ∧
    MIN_TIME ≤ c.work ∧ c.work ≤ MAX_TIME ∧
    MIN_TIME ≤ c.rest ∧ c.rest ≤ MAX_TIME ∧ c.cooldown ≤ MAX_TIME

instance : DecidablePred ValidConfig := fun c => by
  unfold ValidConfig; infer_instance

/-- The tick count after which a full unpaused run is complete. -/
def totalTicks (c : HIITConfig) : Nat :=
  c.prep + c.sets * c.work + (c.sets - 1) * c.rest + c.cooldown

/-- States reachable from a fresh auto-started timer on config `c` under
the engine's operations. -/
inductive Reachable (c : HIITConfig) : TimerState → Prop where
  | init : Reachable c (initializeTimerState c true)
  | tick {s} : Reachable c s → Reachable c (tick s)
  | pause {s} : Reachable c s → Reachable c (handlePause s)
  | play {s} : Reachable c s → Reachable c (handlePlay s)
  | skip {s} : Reachable c s → Reachable c (handleSkipSet s)
  | restart {s} : Reachable c s → Reachable c (handleRestart s)

/-- `RunsTo s n t`: `n` ticks take `s` to `t`, and the phase is not yet
`complete` strictly before the `n`-th tick. -/
def RunsTo (s : TimerState) (n : Nat) (t : TimerState) : Prop :=
  tick^[n] s = t ∧ ∀ k < n, (tick^[k] s).phase ≠ TimerPhase.complete

/-- The state at the very beginning of a phase `p` of duration `d` during
set `i` of an unpaused run on config `c`. -/
def phaseState (c : HIITConfig) (p : TimerPhase) (i d : Nat) : TimerState :=
  ⟨p, i, d, d, false, c⟩

/-- The config of the concrete scenario in the specification. -/
def demoConfig : HIITConfig := ⟨10, 2, 20, 10, 0⟩

/-- A minimal one-set configuration used to exhibit reachable states. -/
def tinyConfig : HIITConfig := ⟨1, 1, 1, 1, 0⟩

/-! ### Basic facts about single ticks -/

lemma tick_of_paused {s : TimerState} (h : s.isPaused = true) : tick s = s := by
  unfold tick
  rw [if_pos (Or.inl h)]

lemma tick_of_complete {s : TimerState} (h : s.phase = TimerPhase.complete) :
    tick s = s := by
  unfold tick
  rw [if_pos (Or.inr h)]

lemma tick_iterate_paused {s : TimerState} (h : s.isPaused = true) (n : Nat) :
    tick^[n] s = s := by
  induction n with
  | zero => rfl
  | succ n ih => rw [Function.iterate_succ_apply', ih, tick_of_paused h]

lemma tick_run {s : TimerState} (h1 : s.isPaused = false)
    (h2 : s.phase ≠ TimerPhase.complete) : tick s = tickUpdate s := by
  unfold tick
  rw [if_neg]
  rintro (hp | hc)
  · rw [h1] at hp
    exact Bool.false_ne_true hp
  · exact h2 hc

/-! ### The skip operation is the boundary branch of the tick updater -/

lemma handleSkipSet_of_next_complete {s : TimerState}
    (h : getNextPhase s = TimerPhase.complete) :
    handleSkipSet s =
      { s with phase := TimerPhase.complete, timeRemaining := 0, isPaused := true } := by
  unfold handleSkipSet
  rw [if_pos h]

lemma handleSkipSet_of_next_not_complete {s : TimerState}
    (h : getNextPhase s ≠ TimerPhase.complete) :
    handleSkipSet s =
      { s with
        phase := getNextPhase s
        currentSet :=
          if getNextPhase s = TimerPhase.work ∧ s.phase = TimerPhase.rest then
            s.currentSet + 1
          else s.currentSet
        timeRemaining := getPhaseDuration (getNextPhase s) s
        totalTime := getPhaseDuration (getNextPhase s) s } := by
  unfold handleSkipSet
  rw [if_neg h]

lemma tickUpdate_eq_skip {s : TimerState} (h : s.timeRemaining ≤ 1) :
    tickUpdate s = handleSkipSet s := by
  unfold tickUpdate handleSkipSet
  rw [if_pos h]
  by_cases h1 : getNextPhase s = TimerPhase.complete
  · rw [if_pos h1, if_pos h1]
  · rw [if_neg h1, if_neg h1]
    by_cases h2 : getNextPhase s = TimerPhase.work ∧ s.phase = TimerPhase.rest
    · rw [if_pos h2, if_pos h2, h2.1]
      rfl
    · rw [if_neg h2, if_neg h2]

lemma handleSkipSet_set_tr (s : TimerState) (x : Nat) :
    handleSkipSet { s with timeRemaining := x } = handleSkipSet s := rfl

/-! ### Counting down through one phase -/

lemma tick_decrement {s : TimerState} (h1 : s.isPaused = false)
    (h2 : s.phase ≠ TimerPhase.complete) (h3 : 2 ≤ s.timeRemaining) :
    tick s = { s with timeRemaining := s.timeRemaining - 1 } := by
  rw [tick_run h1 h2]
  unfold tickUpdate
  rw [if_neg (by omega)]

lemma tick_countdown {s : TimerState} (h1 : s.isPaused = false)
    (h2 : s.phase ≠ TimerPhase.complete) :
    ∀ k, k < s.timeRemaining →
      tick^[k] s = { s with timeRemaining := s.timeRemaining - k } := by
  intro k
  induction k with
  | zero => intro _; simp
  | succ k ih =>
    intro hk
    rw [Function.iterate_succ_apply', ih (by omega)]
    rw [tick_decrement (s := { s with timeRemaining := s.timeRemaining - k }) h1 h2
      (show 2 ≤ s.timeRemaining - k by omega)]
    have e : s.timeRemaining - k - 1 = s.timeRemaining - (k + 1) := by omega
    show ({ s with timeRemaining := s.timeRemaining - k - 1 } : TimerState) = _
    rw [e]

/-! ### Runs: iterated ticks that stay short of completion -/

lemma RunsTo.trans {s t u : TimerState} {a b : Nat}
    (h1 : RunsTo s a t) (h2 : RunsTo t b u) : RunsTo s (a + b) u := by
  obtain ⟨e1, ne1⟩ := h1
  obtain ⟨e2, ne2⟩ := h2
  constructor
  · rw [Nat.add_comm, Function.iterate_add_apply, e1, e2]
  · intro k hk
    by_cases hka : k < a
    · exact ne1 k hka
    · have hsplit : k = (k - a) + a := by omega
      rw [hsplit, Function.iterate_add_apply, e1]
      exact ne2 _ (by omega)

lemma RunsTo.cast {s t : TimerState} {n m : Nat} (h : RunsTo s n t) (e : n = m) :
    RunsTo s m t := e ▸ h

lemma segment_runsTo {s : TimerState} (h1 : s.isPaused = false)
    (h2 : s.phase ≠ TimerPhase.complete) (h3 : 1 ≤ s.timeRemaining) :
    RunsTo s s.timeRemaining (handleSkipSet s) := by
  constructor
  · have e : s.timeRemaining = (s.timeRemaining - 1) + 1 := by omega
    rw [e, Function.iterate_succ_apply']
    rw [tick_countdown h1 h2 (s.timeRemaining - 1) (by omega)]
    rw [tick_run (s := { s with timeRemaining := s.timeRemaining - (s.timeRemaining - 1) })
      h1 h2]
    rw [tickUpdate_eq_skip (s := { s with timeRemaining := s.timeRemaining - (s.timeRemaining - 1) })
      (show s.timeRemaining - (s.timeRemaining - 1) ≤ 1 by omega)]
    exact handleSkipSet_set_tr s _
  · intro k hk
    rw [tick_countdown h1 h2 k hk]
    exact h2

/-! ### Phase boundaries along an unpaused run -/

lemma skip_phaseState_prep (c : HIITConfig) (i d : Nat) :
    handleSkipSet (phaseState c TimerPhase.prep i d) =
      phaseState c TimerPhase.work i c.work := rfl

lemma skip_phaseState_rest (c : HIITConfig) (i d : Nat) :
    handleSkipSet (phaseState c TimerPhase.rest i d) =
      phaseState c TimerPhase.work (i + 1) c.work := rfl

lemma skip_phaseState_cooldown (c : HIITConfig) (i d : Nat) :
    handleSkipSet (phaseState c TimerPhase.cooldown i d) =
      ⟨TimerPhase.complete, i, 0, d, true, c⟩ := rfl

lemma skip_phaseState_work_mid (c : HIITConfig) (i d : Nat) (h : i < c.sets) :
    handleSkipSet (phaseState c TimerPhase.work i d) =
      phaseState c TimerPhase.rest i c.rest := by
  unfold handleSkipSet getNextPhase getPhaseDuration phaseState
  simp [h]

lemma skip_phaseState_work_cool (c : HIITConfig) (i d : Nat)
    (h1 : ¬ i < c.sets) (h2 : 0 < c.cooldown) :
    handleSkipSet (phaseState c TimerPhase.work i d) =
      phaseState c TimerPhase.cooldown i c.cooldown := by
  unfold handleSkipSet getNextPhase getPhaseDuration phaseState
  simp [h1, h2]

lemma skip_phaseState_work_done (c : HIITConfig) (i d : Nat)
    (h1 : ¬ i < c.sets) (h2 : c.cooldown = 0) :
    handleSkipSet (phaseState c TimerPhase.work i d) =
      ⟨TimerPhase.complete, i, 0, d, true, c⟩ := by
  unfold handleSkipSet getNextPhase getPhaseDuration phaseState
  simp [h1, h2]

lemma runsTo_phaseState (c : HIITConfig) (p : TimerPhase) (i d : Nat)
    (hp : p ≠ TimerPhase.complete) (hd : 1 ≤ d) :
    RunsTo (phaseState c p i d) d (handleSkipSet (phaseState c p i d)) :=
  segment_runsTo rfl hp hd

/-- From the start of work set `i` (with `d` further sets to go after it),
an unpaused run reaches a completed state in exactly
`work + d * (rest + work) + cooldown` more ticks. -/
lemma run_from_work (c : HIITConfig) (hw : 1 ≤ c.work) (hr : 1 ≤ c.rest) :
    ∀ d i, 1 ≤ i → i + d = c.sets →
      ∃ t, t.phase = TimerPhase.complete ∧ t.currentSet = c.sets ∧
        t.timeRemaining = 0 ∧ t.isPaused = true ∧
        RunsTo (phaseState c TimerPhase.work i c.work)
          (c.work + d * (c.rest + c.work) + c.cooldown) t := by
  intro d
  induction d with
  | zero =>
    intro i h1 h2
    have hi : ¬ i < c.sets := by omega
    by_cases hc : c.cooldown = 0
    · refine ⟨⟨TimerPhase.complete, i, 0, c.work, true, c⟩, rfl, by simp; omega, rfl, rfl, ?_⟩
      have seg := runsTo_phaseState c TimerPhase.work i c.work (by decide) hw
      rw [skip_phaseState_work_done c i c.work hi hc] at seg
      exact seg.cast (by rw [hc]; ring)
    · have hc' : 1 ≤ c.cooldown := by omega
      have seg1 := runsTo_phaseState c TimerPhase.work i c.work (by decide) hw
      rw [skip_phaseState_work_cool c i c.work hi (by omega)] at seg1
      have seg2 := runsTo_phaseState c TimerPhase.cooldown i c.cooldown (by decide) hc'
      rw [skip_phaseState_cooldown] at seg2
      refine ⟨⟨TimerPhase.complete, i, 0, c.cooldown, true, c⟩, rfl, by simp; omega, rfl, rfl, ?_⟩
      exact (seg1.trans seg2).cast (by ring)
  | succ d ih =>
    intro i h1 h2
    have hi : i < c.sets := by omega
    have seg1 := runsTo_phaseState c TimerPhase.work i c.work (by decide) hw
    rw [skip_phaseState_work_mid c i c.work hi] at seg1
    have seg2 := runsTo_phaseState c TimerPhase.rest i c.rest (by decide) hr
    rw [skip_phaseState_rest] at seg2
    obtain ⟨t, ht1, ht2, ht3, ht4, run3⟩ := ih (i + 1) (by omega) (by omega)
    refine ⟨t, ht1, ht2, ht3, ht4, ?_⟩
    exact ((seg1.trans seg2).trans run3).cast (by ring)

/-- A full unpaused run on a valid config reaches a completed state (set
counter at `sets`, nothing remaining, paused) after exactly `totalTicks c`
ticks, and is never in phase `complete` strictly before that. -/
lemma run_full (c : HIITConfig) (hv : ValidConfig c) :
    ∃ t, t.phase = TimerPhase.complete ∧ t.currentSet = c.sets ∧
      t.timeRemaining = 0 ∧ t.isPaused = true ∧
      RunsTo (initializeTimerState c true) (totalTicks c) t := by
  obtain ⟨hp1, hp2, hs, hw1, hw2, hr1, hr2, hc2⟩ := hv
  have seg0 : RunsTo (initializeTimerState c true) c.prep
      (phaseState c TimerPhase.work 1 c.work) := by
    have h := runsTo_phaseState c TimerPhase.prep 1 c.prep (by decide) hp1
    rw [skip_phaseState_prep] at h
    exact h
  obtain ⟨t, ht1, ht2, ht3, ht4, run1⟩ :=
    run_from_work c hw1 hr1 (c.sets - 1) 1 (by omega) (by omega)
  refine ⟨t, ht1, ht2, ht3, ht4, (seg0.trans run1).cast ?_⟩
  unfold totalTicks
  obtain ⟨k, hk⟩ : ∃ k, c.sets = k + 1 := ⟨c.sets - 1, by omega⟩
  rw [hk]
  simp only [Nat.add_sub_cancel]
  ring

set_option maxRecDepth 100000

/-- A state at the end of the demo-config run: phase complete with the
terminal field values the tick updater assigns. -/
def completedDemo : TimerState := ⟨TimerPhase.complete, 2, 0, 20, true, demoConfig⟩

/-- A phase-`complete` state whose pause flag has been cleared. -/
def unpausedComplete : TimerState := ⟨TimerPhase.complete, 2, 0, 20, false, demoConfig⟩

/-- C1: for every valid config, a fresh unpaused timer reaches phase
`complete` after exactly `prep + sets*work + (sets-1)*rest + cooldown`
ticks, and is not complete after any smaller number of ticks. -/
theorem run_completes_exactly (c : HIITConfig) (hv : ValidConfig c) :
    (tick^[totalTicks c] (initializeTimerState c true)).phase = TimerPhase.complete ∧
      ∀ n < totalTicks c,
        (tick^[n] (initializeTimerState c true)).phase ≠ TimerPhase.complete := by
  obtain ⟨t, ht1, -, -, -, hrun⟩ := run_full c hv
  unfold RunsTo at hrun
  exact ⟨by rw [hrun.1, ht1], hrun.2⟩

/-- Witness for C1 at the spec's demo config `⟨10, 2, 20, 10, 0⟩`. -/
theorem run_completes_exactly_witness :
    ValidConfig demoConfig ∧
      ((tick^[totalTicks demoConfig] (initializeTimerState demoConfig true)).phase =
          TimerPhase.complete ∧
        ∀ n < totalTicks demoConfig,
          (tick^[n] (initializeTimerState demoConfig true)).phase ≠ TimerPhase.complete) :=
  ⟨by decide, run_completes_exactly demoConfig (by decide)⟩

/-- C2: a tick is a no-op on a paused state and on a completed state, and
pausing, ticking any number of times, then resuming yields the pre-pause
state with only `isPaused` (cleared) differing. -/
theorem tick_noop_and_pause_resume (s : TimerState) (n : Nat) :
    (s.isPaused = true → tick s = s) ∧
    (s.phase = TimerPhase.complete → tick s = s) ∧
    handlePlay (tick^[n] (handlePause s)) = { s with isPaused := false } := by
  refine ⟨fun h => tick_of_paused h, fun h => tick_of_complete h, ?_⟩
  rw [tick_iterate_paused (s := handlePause s) rfl n]
  rfl

/-- Witness for C2 on a paused completed state. -/
theorem tick_noop_and_pause_resume_witness :
    tick completedDemo = completedDemo ∧
      handlePlay (tick^[3] (handlePause completedDemo)) =
        { completedDemo with isPaused := false } :=
  ⟨(tick_noop_and_pause_resume completedDemo 3).1 rfl,
    (tick_noop_and_pause_resume completedDemo 3).2.2⟩

/-- C4 counterexample: `handlePlay` (resume) is not a no-op on a completed
state — it clears `isPaused` unconditionally. -/
theorem play_on_complete_not_noop :
    completedDemo.phase = TimerPhase.complete ∧ handlePlay completedDemo ≠ completedDemo := by
  decide

/-- C4 (amended): resume sets `isPaused` to `false` and changes no other
field; it is a no-op exactly on states that are already unpaused.  On a
completed state — which is paused — it does change the state. -/
theorem play_spec (s : TimerState) :
    (handlePlay s).isPaused = false ∧
    (handlePlay s).phase = s.phase ∧
    (handlePlay s).currentSet = s.currentSet ∧
    (handlePlay s).timeRemaining = s.timeRemaining ∧
    (handlePlay s).totalTime = s.totalTime ∧
    (handlePlay s).config = s.config ∧
    (s.isPaused = false → handlePlay s = s) := by
  refine ⟨rfl, rfl, rfl, rfl, rfl, rfl, fun h => ?_⟩
  unfold handlePlay
  rw [← h]

/-- Witness for C4 (amended) on a fresh unpaused state. -/
theorem play_spec_witness :
    (initializeTimerState demoConfig true).isPaused = false ∧
      handlePlay (initializeTimerState demoConfig true) = initializeTimerState demoConfig true :=
  ⟨by decide, (play_spec (initializeTimerState demoConfig true)).2.2.2.2.2.2 (by decide)⟩

/-- C5: `getNextPhase` implements the phase table of the spec. -/
theorem nextPhase_table (s : TimerState) :
    (s.phase = TimerPhase.prep → getNextPhase s = TimerPhase.work) ∧
    (s.phase = TimerPhase.work → s.currentSet < s.config.sets →
       getNextPhase s = TimerPhase.rest) ∧
    (s.phase = TimerPhase.work → s.currentSet = s.config.sets → 0 < s.config.cooldown →
       getNextPhase s = TimerPhase.cooldown) ∧
    (s.phase = TimerPhase.work → s.currentSet = s.config.sets → s.config.cooldown = 0 →
       getNextPhase s = TimerPhase.complete) ∧
    (s.phase = TimerPhase.rest → getNextPhase s = TimerPhase.work) ∧
    (s.phase = TimerPhase.cooldown → getNextPhase s = TimerPhase.complete) ∧
    (s.phase = TimerPhase.complete → getNextPhase s = TimerPhase.complete) := by
  unfold getNextPhase
  refine ⟨fun h => by rw [h], fun h hlt => by rw [h]; simp [hlt],
    fun h he hcd => by rw [h]; simp [he, hcd],
    fun h he hcd => by rw [h]; simp [he, hcd],
    fun h => by rw [h], fun h => by rw [h], fun h => by rw [h]⟩

/-- Witness for C5: final work set with zero cooldown goes to `complete`. -/
theorem nextPhase_table_witness :
    getNextPhase (phaseState demoConfig TimerPhase.work 2 20) = TimerPhase.complete :=
  (nextPhase_table (phaseState demoConfig TimerPhase.work 2 20)).2.2.2.1 rfl rfl rfl

/-- C7 counterexample: on an unpaused phase-`complete` state with
`timeRemaining ≤ 1`, tick is a no-op but skip re-asserts the terminal
fields (`isPaused := true`), so the two produce different states. -/
theorem skip_ne_tick_on_unpaused_complete :
    unpausedComplete.isPaused = false ∧ unpausedComplete.timeRemaining ≤ 1 ∧
      handleSkipSet unpausedComplete ≠ tick unpausedComplete := by
  decide

/-- C7 (amended): skip applies exactly the boundary branch of the tick
updater — the updater body agrees with skip whenever `timeRemaining ≤ 1`,
hence on every unpaused, not-complete state with `timeRemaining ≤ 1` a
tick and a skip produce equal states; and skip from `rest` transitions to
`work` incrementing `currentSet` by exactly 1.  (On `complete` states a
tick is a no-op while skip re-asserts the terminal fields.) -/
theorem skip_eq_boundary_tick (s : TimerState) :
    (s.timeRemaining ≤ 1 → tickUpdate s = handleSkipSet s) ∧
    (s.isPaused = false → s.phase ≠ TimerPhase.complete → s.timeRemaining ≤ 1 →
       tick s = handleSkipSet s) ∧
    (s.phase = TimerPhase.rest →
       (handleSkipSet s).phase = TimerPhase.work ∧
       (handleSkipSet s).currentSet = s.currentSet + 1) := by
  refine ⟨fun h => tickUpdate_eq_skip h, fun h1 h2 h3 => ?_, fun h => ?_⟩
  · rw [tick_run h1 h2]
    exact tickUpdate_eq_skip h3
  · have hn : getNextPhase s = TimerPhase.work := by
      unfold getNextPhase; rw [h]
    rw [handleSkipSet_of_next_not_complete (by rw [hn]; decide)]
    refine ⟨hn, ?_⟩
    show (if getNextPhase s = TimerPhase.work ∧ s.phase = TimerPhase.rest then
        s.currentSet + 1 else s.currentSet) = s.currentSet + 1
    rw [if_pos ⟨hn, h⟩]

/-- Witness for C7 (amended) at a boundary rest state. -/
theorem skip_eq_boundary_tick_witness :
    tick (phaseState demoConfig TimerPhase.rest 1 1) =
        handleSkipSet (phaseState demoConfig TimerPhase.rest 1 1) ∧
      (handleSkipSet (phaseState demoConfig TimerPhase.rest 1 1)).currentSet = 2 :=
  ⟨(skip_eq_boundary_tick (phaseState demoConfig TimerPhase.rest 1 1)).2.1 rfl
      (by decide) (by decide),
    ((skip_eq_boundary_tick (phaseState demoConfig TimerPhase.rest 1 1)).2.2 rfl).2⟩

/-- C9 counterexample: on the scenario config `⟨10, 2, 20, 10, 0⟩` the run
is already complete after 60 ticks, so completion does not take 70 ticks. -/
theorem demo_complete_at_sixty :
    (tick^[60] (initializeTimerState demoConfig true)).phase = TimerPhase.complete ∧
      (60 : Nat) < 70 := by
  exact ⟨by decide, by decide⟩

/-- C9 (amended): the scenario trace for config `⟨10, 2, 20, 10, 0⟩` —
`(Prep,1,10)` at start, `(Work,1,20)` after 10 ticks, `(Rest,1,10)` after
30, `(Work,2,20)` after 40, `(Complete,2,0)` after 60 — with total ticks
to completion 60 (the spec's figure of 70 is off by ten). -/
theorem demo_trace :
    initializeTimerState demoConfig true =
        ⟨TimerPhase.prep, 1, 10, 10, false, demoConfig⟩ ∧
    tick^[10] (initializeTimerState demoConfig true) =
        ⟨TimerPhase.work, 1, 20, 20, false, demoConfig⟩ ∧
    tick^[30] (initializeTimerState demoConfig true) =
        ⟨TimerPhase.rest, 1, 10, 10, false, demoConfig⟩ ∧
    tick^[40] (initializeTimerState demoConfig true) =
        ⟨TimerPhase.work, 2, 20, 20, false, demoConfig⟩ ∧
    tick^[60] (initializeTimerState demoConfig true) =
        ⟨TimerPhase.complete, 2, 0, 20, true, demoConfig⟩ ∧
    (∀ n < 60, (tick^[n] (initializeTimerState demoConfig true)).phase ≠
        TimerPhase.complete) ∧
    totalTicks demoConfig = 60 := by
  refine ⟨by decide, by decide, by decide, by decide, by decide, by decide, by decide⟩

/-- Witness for C9 (amended): the bounded quantifier applied at 59. -/
theorem demo_trace_witness :
    (59 : Nat) < 60 ∧
      (tick^[59] (initializeTimerState demoConfig true)).phase ≠ TimerPhase.complete :=
  ⟨by decide, demo_trace.2.2.2.2.2.1 59 (by decide)⟩

/-- C10: skip is the identity on well-formed completed states: it
re-resolves to `complete` and re-asserts the terminal field values. -/
theorem skip_complete_identity (s : TimerState)
    (h1 : s.phase = TimerPhase.complete) (h2 : s.timeRemaining = 0)
    (h3 : s.isPaused = true) : handleSkipSet s = s := by
  have hn : getNextPhase s = TimerPhase.complete := by
    unfold getNextPhase; rw [h1]
  rw [handleSkipSet_of_next_complete hn, ← h1, ← h2, ← h3]

/-- Witness for C10. -/
theorem skip_complete_identity_witness : handleSkipSet completedDemo = completedDemo :=
  skip_complete_identity completedDemo rfl rfl rfl

/-! ### Case analysis of a single tick -/

lemma tick_cases (s : TimerState) :
    tick s = s ∨
      (s.phase ≠ TimerPhase.complete ∧ tick s = handleSkipSet s) ∨
      (s.phase ≠ TimerPhase.complete ∧
        tick s = { s with timeRemaining := s.timeRemaining - 1 }) := by
  by_cases hg : s.isPaused = true ∨ s.phase = TimerPhase.complete
  · left
    unfold tick
    rw [if_pos hg]
  · push_neg at hg
    have h1 : s.isPaused = false := by
      cases hb : s.isPaused
      · rfl
      · exact absurd hb hg.1
    by_cases htr : s.timeRemaining ≤ 1
    · right; left
      exact ⟨hg.2, by rw [tick_run h1 hg.2]; exact tickUpdate_eq_skip htr⟩
    · right; right
      exact ⟨hg.2, tick_decrement h1 hg.2 (by omega)⟩

/-! ### Forward computation of getNextPhase -/

lemma getNextPhase_work_cool {s : TimerState} (h : s.phase = TimerPhase.work)
    (hge : ¬ s.currentSet < s.config.sets) (hcd : 0 < s.config.cooldown) :
    getNextPhase s = TimerPhase.cooldown := by
  unfold getNextPhase
  rw [h]
  show (if s.currentSet < s.config.sets then TimerPhase.rest
    else if s.config.cooldown > 0 then TimerPhase.cooldown else TimerPhase.complete) =
      TimerPhase.cooldown
  rw [if_neg hge, if_pos hcd]

lemma getNextPhase_work_done {s : TimerState} (h : s.phase = TimerPhase.work)
    (hge : ¬ s.currentSet < s.config.sets) (hcd : ¬ 0 < s.config.cooldown) :
    getNextPhase s = TimerPhase.complete := by
  unfold getNextPhase
  rw [h]
  show (if s.currentSet < s.config.sets then TimerPhase.rest
    else if s.config.cooldown > 0 then TimerPhase.cooldown else TimerPhase.complete) =
      TimerPhase.complete
  rw [if_neg hge, if_neg hcd]

lemma getNextPhase_of_prep {s : TimerState} (h : s.phase = TimerPhase.prep) :
    getNextPhase s = TimerPhase.work := by
  unfold getNextPhase
  rw [h]

lemma getNextPhase_of_rest {s : TimerState} (h : s.phase = TimerPhase.rest) :
    getNextPhase s = TimerPhase.work := by
  unfold getNextPhase
  rw [h]

lemma getNextPhase_of_cooldown {s : TimerState} (h : s.phase = TimerPhase.cooldown) :
    getNextPhase s = TimerPhase.complete := by
  unfold getNextPhase
  rw [h]

lemma getNextPhase_of_complete {s : TimerState} (h : s.phase = TimerPhase.complete) :
    getNextPhase s = TimerPhase.complete := by
  unfold getNextPhase
  rw [h]

/-- The sequencer only ever answers `rest` out of a work phase that is not
the final set. -/
lemma getNextPhase_eq_rest {s : TimerState} (h : getNextPhase s = TimerPhase.rest) :
    s.phase = TimerPhase.work ∧ s.currentSet < s.config.sets := by
  cases hp : s.phase
  case prep => rw [getNextPhase_of_prep hp] at h; exact absurd h (by decide)
  case work =>
    by_cases hlt : s.currentSet < s.config.sets
    · exact ⟨rfl, hlt⟩
    · by_cases hcd : 0 < s.config.cooldown
      · rw [getNextPhase_work_cool hp hlt hcd] at h; exact absurd h (by decide)
      · rw [getNextPhase_work_done hp hlt hcd] at h; exact absurd h (by decide)
  case rest => rw [getNextPhase_of_rest hp] at h; exact absurd h (by decide)
  case cooldown => rw [getNextPhase_of_cooldown hp] at h; exact absurd h (by decide)
  case complete => rw [getNextPhase_of_complete hp] at h; exact absurd h (by decide)

/-! ### The completed-state invariant (C3) -/

/-- Weak half of the terminal invariant: a completed state shows zero time
remaining. -/
def CompleteZero (s : TimerState) : Prop :=
  s.phase = TimerPhase.complete → s.timeRemaining = 0

/-- Full terminal invariant: a completed state shows zero time remaining
and is paused. -/
def CompleteInv (s : TimerState) : Prop :=
  s.phase = TimerPhase.complete → s.timeRemaining = 0 ∧ s.isPaused = true

lemma completeZero_skip {s : TimerState} : CompleteZero (handleSkipSet s) := by
  by_cases hn : getNextPhase s = TimerPhase.complete
  · rw [handleSkipSet_of_next_complete hn]
    intro _
    rfl
  · rw [handleSkipSet_of_next_not_complete hn]
    intro hph
    exact absurd hph hn

lemma completeZero_tick {s : TimerState} (h : CompleteZero s) :
    CompleteZero (tick s) := by
  rcases tick_cases s with he | ⟨hnc, he⟩ | ⟨hnc, he⟩
  · rw [he]; exact h
  · rw [he]; exact completeZero_skip
  · rw [he]
    intro hph
    exact absurd hph hnc

lemma completeInv_skip {s : TimerState} : CompleteInv (handleSkipSet s) := by
  by_cases hn : getNextPhase s = TimerPhase.complete
  · rw [handleSkipSet_of_next_complete hn]
    intro _
    exact ⟨rfl, rfl⟩
  · rw [handleSkipSet_of_next_not_complete hn]
    intro hph
    exact absurd hph hn

lemma completeInv_tick {s : TimerState} (h : CompleteInv s) :
    CompleteInv (tick s) := by
  rcases tick_cases s with he | ⟨hnc, he⟩ | ⟨hnc, he⟩
  · rw [he]; exact h
  · rw [he]; exact completeInv_skip
  · rw [he]
    intro hph
    exact absurd hph hnc

/-- Every reachable state satisfies the weak terminal invariant, whatever
the operations interleaved (including resume). -/
lemma reachable_completeZero {c : HIITConfig} {s : TimerState}
    (h : Reachable c s) : CompleteZero s := by
  induction h with
  | init => intro hph; exact absurd hph (by simp [initializeTimerState])
  | tick _ ih => exact completeZero_tick ih
  | pause _ ih => exact ih
  | play _ ih => exact ih
  | skip _ ih => exact completeZero_skip
  | restart _ ih =>
      intro hph
      exact absurd hph (by simp [handleRestart, initializeTimerState])

/-- C3 (amended): in every state reachable from a fresh start under tick,
pause, resume, skip and restart, `phase == complete` implies
`timeRemaining == 0`; and each of tick, pause, skip and restart preserves
the full invariant `complete → timeRemaining = 0 ∧ isPaused`.  The full
invariant is not preserved by resume (`handlePlay`), which clears
`isPaused` even on a completed state. -/
theorem reachable_complete_invariant (c : HIITConfig) :
    (∀ s, Reachable c s → s.phase = TimerPhase.complete → s.timeRemaining = 0) ∧
    (∀ s, CompleteInv s →
       CompleteInv (tick s) ∧ CompleteInv (handlePause s) ∧
         CompleteInv (handleSkipSet s) ∧ CompleteInv (handleRestart s)) := by
  refine ⟨fun s hr => reachable_completeZero hr, fun s h => ?_⟩
  refine ⟨completeInv_tick h, ?_, completeInv_skip, ?_⟩
  · intro hph
    exact ⟨(h hph).1, rfl⟩
  · intro hph
    exact absurd hph (by simp [handleRestart, initializeTimerState])

/-- The reachable state that breaks the `isPaused` half of the claimed
invariant: run the one-second one-set workout to completion, then resume. -/
def resumedComplete : TimerState :=
  handlePlay (tick (tick (initializeTimerState tinyConfig true)))

/-- C3 counterexample: `resumedComplete` is reachable (two ticks then
`handlePlay`), its phase is `complete`, yet it is not paused — so the
claimed invariant `complete → timeRemaining = 0 ∧ isPaused` fails on a
reachable state. -/
theorem reachable_complete_invariant_violated :
    Reachable tinyConfig resumedComplete ∧
      resumedComplete.phase = TimerPhase.complete ∧
      ¬ (resumedComplete.timeRemaining = 0 ∧ resumedComplete.isPaused = true) :=
  ⟨Reachable.play (Reachable.tick (Reachable.tick Reachable.init)), by decide, by decide⟩

/-- Witness for C3 (amended): the invariant applied to a concrete
reachable completed state. -/
theorem reachable_complete_invariant_witness :
    (tick (tick (initializeTimerState tinyConfig true))).timeRemaining = 0 :=
  (reachable_complete_invariant tinyConfig).1 _
    (Reachable.tick (Reachable.tick Reachable.init)) (by decide)

/-! ### The set-counter invariant and increment count (C6) -/

/-- `currentSet` stays within `config.sets`; a rest phase always has a
strictly smaller counter (its set still has a work phase to come); the
config is the one the run started with. -/
def SetInv (c : HIITConfig) (s : TimerState) : Prop :=
  s.currentSet ≤ c.sets ∧ (s.phase = TimerPhase.rest → s.currentSet < c.sets) ∧
    s.config = c

lemma setInv_skip {c : HIITConfig} {s : TimerState} (h : SetInv c s) :
    SetInv c (handleSkipSet s) := by
  obtain ⟨h1, h2, h3⟩ := h
  by_cases hn : getNextPhase s = TimerPhase.complete
  · rw [handleSkipSet_of_next_complete hn]
    exact ⟨h1, fun hph => absurd hph (by simp), h3⟩
  · rw [handleSkipSet_of_next_not_complete hn]
    refine ⟨?_, ?_, h3⟩
    · show (if getNextPhase s = TimerPhase.work ∧ s.phase = TimerPhase.rest then
          s.currentSet + 1 else s.currentSet) ≤ c.sets
      by_cases hc : getNextPhase s = TimerPhase.work ∧ s.phase = TimerPhase.rest
      · rw [if_pos hc]
        have := h2 hc.2
        omega
      · rw [if_neg hc]
        exact h1
    · intro hph
      have hrest : s.phase = TimerPhase.work ∧ s.currentSet < s.config.sets :=
        getNextPhase_eq_rest hph
      have hcf : ¬ (getNextPhase s = TimerPhase.work ∧ s.phase = TimerPhase.rest) := by
        rintro ⟨-, hr⟩
        rw [hrest.1] at hr
        exact absurd hr (by decide)
      show (if getNextPhase s = TimerPhase.work ∧ s.phase = TimerPhase.rest then
          s.currentSet + 1 else s.currentSet) < c.sets
      rw [if_neg hcf]
      have := hrest.2
      rw [h3] at this
      exact this

lemma setInv_tick {c : HIITConfig} {s : TimerState} (h : SetInv c s) :
    SetInv c (tick s) := by
  rcases tick_cases s with he | ⟨-, he⟩ | ⟨-, he⟩
  · rw [he]; exact h
  · rw [he]; exact setInv_skip h
  · rw [he]; exact h

lemma reachable_setInv {c : HIITConfig} (hs : 1 ≤ c.sets) {s : TimerState}
    (h : Reachable c s) : SetInv c s := by
  induction h with
  | init => exact ⟨hs, fun hph => absurd hph (by simp [initializeTimerState]), rfl⟩
  | tick _ ih => exact setInv_tick ih
  | pause _ ih => exact ih
  | play _ ih => exact ih
  | skip _ ih => exact setInv_skip ih
  | restart _ ih =>
      exact ⟨hs, fun hph => absurd hph (by simp [handleRestart, initializeTimerState]),
        ih.2.2⟩

lemma skip_currentSet_step (s : TimerState) :
    (handleSkipSet s).currentSet = s.currentSet ∨
      (s.phase = TimerPhase.rest ∧ (handleSkipSet s).phase = TimerPhase.work ∧
        (handleSkipSet s).currentSet = s.currentSet + 1) := by
  by_cases hn : getNextPhase s = TimerPhase.complete
  · rw [handleSkipSet_of_next_complete hn]
    left
    rfl
  · rw [handleSkipSet_of_next_not_complete hn]
    by_cases hc : getNextPhase s = TimerPhase.work ∧ s.phase = TimerPhase.rest
    · right
      refine ⟨hc.2, hc.1, ?_⟩
      show (if getNextPhase s = TimerPhase.work ∧ s.phase = TimerPhase.rest then
          s.currentSet + 1 else s.currentSet) = s.currentSet + 1
      rw [if_pos hc]
    · left
      show (if getNextPhase s = TimerPhase.work ∧ s.phase = TimerPhase.rest then
          s.currentSet + 1 else s.currentSet) = s.currentSet
      rw [if_neg hc]

lemma tick_currentSet_step (s : TimerState) :
    (tick s).currentSet = s.currentSet ∨
      (s.phase = TimerPhase.rest ∧ (tick s).phase = TimerPhase.work ∧
        (tick s).currentSet = s.currentSet + 1) := by
  rcases tick_cases s with he | ⟨-, he⟩ | ⟨-, he⟩
  · rw [he]; left; rfl
  · rw [he]; exact skip_currentSet_step s
  · rw [he]; left; rfl

/-- The set counter read off after `n` ticks of an unpaused run. -/
def setCountAt (c : HIITConfig) (n : Nat) : Nat :=
  (tick^[n] (initializeTimerState c true)).currentSet

/-- Counting 0/+1 steps: the number of indices below `N` at which a
staircase function increments equals its total rise. -/
lemma card_increments (g : Nat → Nat)
    (hstep : ∀ n, g (n + 1) = g n ∨ g (n + 1) = g n + 1) :
    ∀ N, ((Finset.range N).filter (fun n => g (n + 1) = g n + 1)).card + g 0 = g N := by
  intro N
  induction N with
  | zero => simp
  | succ N ih =>
    rw [Finset.range_succ, Finset.filter_insert]
    by_cases hp : g (N + 1) = g N + 1
    · rw [if_pos hp, Finset.card_insert_of_not_mem (by simp)]
      omega
    · rw [if_neg hp]
      rcases hstep N with he | he
      · omega
      · exact absurd he hp

lemma setCountAt_step (c : HIITConfig) (n : Nat) :
    setCountAt c (n + 1) = setCountAt c n ∨
      setCountAt c (n + 1) = setCountAt c n + 1 := by
  unfold setCountAt
  rw [Function.iterate_succ_apply']
  rcases tick_currentSet_step (tick^[n] (initializeTimerState c true)) with he | ⟨-, -, he⟩
  · left; exact he
  · right; exact he

/-- C6: on reachable states `currentSet` never exceeds `config.sets`; a
tick or a skip either leaves `currentSet` unchanged or increments it by
exactly one at a rest-to-work transition; a tick out of the prep phase
never changes it; and over a full unpaused run it increments exactly
`sets - 1` times. -/
theorem currentSet_increments (c : HIITConfig) (hv : ValidConfig c) :
    (∀ s, Reachable c s → s.currentSet ≤ c.sets) ∧
    (∀ s, (tick s).currentSet = s.currentSet ∨
       (s.phase = TimerPhase.rest ∧ (tick s).phase = TimerPhase.work ∧
         (tick s).currentSet = s.currentSet + 1)) ∧
    (∀ s, (handleSkipSet s).currentSet = s.currentSet ∨
       (s.phase = TimerPhase.rest ∧ (handleSkipSet s).phase = TimerPhase.work ∧
         (handleSkipSet s).currentSet = s.currentSet + 1)) ∧
    (∀ s, s.phase = TimerPhase.prep → (tick s).currentSet = s.currentSet) ∧
    ((Finset.range (totalTicks c)).filter
        (fun n => setCountAt c (n + 1) = setCountAt c n + 1)).card = c.sets - 1 := by
  have hs : 1 ≤ c.sets := hv.2.2.1
  refine ⟨fun s hr => (reachable_setInv hs hr).1, tick_currentSet_step,
    skip_currentSet_step, ?_, ?_⟩
  · intro s hph
    rcases tick_currentSet_step s with he | ⟨hrest, -, -⟩
    · exact he
    · rw [hph] at hrest
      exact absurd hrest (by decide)
  · have hcount := card_increments (setCountAt c) (setCountAt_step c) (totalTicks c)
    have h0 : setCountAt c 0 = 1 := rfl
    obtain ⟨t, -, ht2, -, -, hrun⟩ := run_full c hv
    unfold RunsTo at hrun
    have hN : setCountAt c (totalTicks c) = c.sets := by
      unfold setCountAt
      rw [hrun.1, ht2]
    omega

/-- Witness for C6 at the demo config. -/
theorem currentSet_increments_witness :
    (initializeTimerState demoConfig true).currentSet ≤ demoConfig.sets ∧
      ((Finset.range (totalTicks demoConfig)).filter
        (fun n => setCountAt demoConfig (n + 1) = setCountAt demoConfig n + 1)).card =
        demoConfig.sets - 1 :=
  ⟨(currentSet_increments demoConfig (by decide)).1 _ Reachable.init,
    (currentSet_increments demoConfig (by decide)).2.2.2.2⟩

/-! ### Validation (C8) -/

lemma bool_eq_false {b : Bool} (h : ¬ b = true) : b = false := by
  cases hb : b
  · rfl
  · exact absurd hb h

lemma validateConfig_eq_none {p : ConfigInput} (h : validateConfig p = none) :
    timeOutOfBounds p.prep MIN_TIME MAX_TIME = false ∧
    setsOutOfBounds p.sets = false ∧
    timeOutOfBounds p.work MIN_TIME MAX_TIME = false ∧
    timeOutOfBounds p.rest MIN_TIME MAX_TIME = false ∧
    cooldownOutOfBounds p.cooldown = false := by
  unfold validateConfig at h
  by_cases h1 : timeOutOfBounds p.prep MIN_TIME MAX_TIME = true
  · rw [if_pos h1] at h
    exact Option.noConfusion h
  · rw [if_neg h1] at h
    by_cases h2 : setsOutOfBounds p.sets = true
    · rw [if_pos h2] at h
      exact Option.noConfusion h
    · rw [if_neg h2] at h
      by_cases h3 : timeOutOfBounds p.work MIN_TIME MAX_TIME = true
      · rw [if_pos h3] at h
        exact Option.noConfusion h
      · rw [if_neg h3] at h
        by_cases h4 : timeOutOfBounds p.rest MIN_TIME MAX_TIME = true
        · rw [if_pos h4] at h
          exact Option.noConfusion h
        · rw [if_neg h4] at h
          by_cases h5 : cooldownOutOfBounds p.cooldown = true
          · rw [if_pos h5] at h
            exact Option.noConfusion h
          · exact ⟨bool_eq_false h1, bool_eq_false h2, bool_eq_false h3,
              bool_eq_false h4, bool_eq_false h5⟩

lemma timeOutOfBounds_false {x : Option Nat} {lo hi : Nat}
    (h : timeOutOfBounds x lo hi = false) :
    ∃ v, x = some v ∧ v ≠ 0 ∧ lo ≤ v ∧ v ≤ hi := by
  cases x with
  | none => exact absurd h (by simp [timeOutOfBounds])
  | some v =>
    simp [timeOutOfBounds] at h
    exact ⟨v, rfl, by omega, by omega, by omega⟩

lemma setsOutOfBounds_false {x : Option Nat} (h : setsOutOfBounds x = false) :
    ∃ v, x = some v ∧ 1 ≤ v := by
  cases x with
  | none => exact absurd h (by simp [setsOutOfBounds])
  | some v =>
    simp [setsOutOfBounds] at h
    exact ⟨v, rfl, by omega⟩

lemma cooldown_getD_le {x : Option Nat} (h : cooldownOutOfBounds x = false) :
    x.getD 0 ≤ MAX_TIME := by
  cases x with
  | none => decide
  | some v =>
    simp [cooldownOutOfBounds] at h
    simpa using h

/-- C8: `validateConfig` checks `prep`, `sets`, `work`, `rest`, `cooldown`
in that order and reports the first violated field by a message naming it;
on success all required fields are present and `handleStart` populates the
full config, defaulting an absent cooldown to 0 and yielding a valid
config.  In particular the scenario input `{prep: 0, sets: 4, work: 20,
rest: 10}` is rejected with the message naming Prep. -/
theorem validateConfig_spec :
    (∀ p : ConfigInput, timeOutOfBounds p.prep MIN_TIME MAX_TIME = true →
       validateConfig p = some prepErrorMessage) ∧
    (∀ p : ConfigInput, timeOutOfBounds p.prep MIN_TIME MAX_TIME = false →
       setsOutOfBounds p.sets = true → validateConfig p = some setsErrorMessage) ∧
    (∀ p : ConfigInput, timeOutOfBounds p.prep MIN_TIME MAX_TIME = false →
       setsOutOfBounds p.sets = false →
       timeOutOfBounds p.work MIN_TIME MAX_TIME = true →
       validateConfig p = some workErrorMessage) ∧
    (∀ p : ConfigInput, timeOutOfBounds p.prep MIN_TIME MAX_TIME = false →
       setsOutOfBounds p.sets = false →
       timeOutOfBounds p.work MIN_TIME MAX_TIME = false →
       timeOutOfBounds p.rest MIN_TIME MAX_TIME = true →
       validateConfig p = some restErrorMessage) ∧
    (∀ p : ConfigInput, timeOutOfBounds p.prep MIN_TIME MAX_TIME = false →
       setsOutOfBounds p.sets = false →
       timeOutOfBounds p.work MIN_TIME MAX_TIME = false →
       timeOutOfBounds p.rest MIN_TIME MAX_TIME = false →
       cooldownOutOfBounds p.cooldown = true →
       validateConfig p = some cooldownErrorMessage) ∧
    (∀ p : ConfigInput, validateConfig p = none →
       (∃ a, p.prep = some a) ∧ (∃ b, p.sets = some b) ∧
       (∃ w, p.work = some w) ∧ (∃ r, p.rest = some r) ∧
       (populateConfig p).cooldown = p.cooldown.getD 0 ∧
       ValidConfig (populateConfig p)) ∧
    validateConfig ⟨some 0, some 4, some 20, some 10, none⟩ = some prepErrorMessage ∧
    prepErrorMessage = "Prep" ++ " must be between 1s and 3600s (60 minutes)" := by
  refine ⟨fun p h1 => by simp [validateConfig, h1],
    fun p h1 h2 => by simp [validateConfig, h1, h2],
    fun p h1 h2 h3 => by simp [validateConfig, h1, h2, h3],
    fun p h1 h2 h3 h4 => by simp [validateConfig, h1, h2, h3, h4],
    fun p h1 h2 h3 h4 h5 => by simp [validateConfig, h1, h2, h3, h4, h5],
    fun p hnone => ?_, by decide, by decide⟩
  obtain ⟨h1, h2, h3, h4, h5⟩ := validateConfig_eq_none hnone
  obtain ⟨a, ha, ha0, halo, hahi⟩ := timeOutOfBounds_false h1
  obtain ⟨b, hb, hb1⟩ := setsOutOfBounds_false h2
  obtain ⟨w, hw, hw0, hwlo, hwhi⟩ := timeOutOfBounds_false h3
  obtain ⟨r, hr, hr0, hrlo, hrhi⟩ := timeOutOfBounds_false h4
  have hcd := cooldown_getD_le h5
  refine ⟨⟨a, ha⟩, ⟨b, hb⟩, ⟨w, hw⟩, ⟨r, hr⟩, rfl, ?_⟩
  unfold ValidConfig populateConfig
  rw [ha, hb, hw, hr]
  simp only [Option.getD_some]
  exact ⟨halo, hahi, hb1, hwlo, hwhi, hrlo, hrhi, hcd⟩

/-- Witness for C8: the sets check fires second on an input whose prep is
fine but whose sets count is zero. -/
theorem validateConfig_spec_witness :
    validateConfig ⟨some 5, some 0, some 20, some 10, none⟩ = some setsErrorMessage :=
  validateConfig_spec.2.1 ⟨some 5, some 0, some 20, some 10, none⟩ (by decide) (by decide)
